import Mathlib

/-!
Verification of the CAN bus-off attack simulator (WeepingCAN variant).

This file is a shallow embedding of the simulator's core: the per-node
transmit-error counter (TEC) state machine (`ecu.py`), the shared bus medium
with wired-AND arbitration, bit-error detection and the fault-confinement
procedure (`can_bus.py`), and the attacker's per-cycle decision logic
(`attacker_ecu.py`).  Logging calls and the purely diagnostic per-run
counters (`_attack_count`, `_skip_count`, ...) are omitted: they never feed
back into the behaviour.  Python's `random.choice(SAFE_INJECT_POSITIONS)` is
replaced by an explicit injection-position argument, and theorems about
attack cycles quantify over positions drawn from `SAFE_INJECT_POSITIONS`;
the jitter draw (`random.random() < SYNC_ERROR_PROBABILITY`) is modelled by
treating the mis-timed branch (`_execute_mistimed`) as its own entry point,
matching the deterministic (probability 0) mode used by the claims.
-/

/-- Bus drive levels (`can_bus.py`): `DOMINANT = 0`. -/
def DOMINANT : Nat := 0

/-- Bus drive levels (`can_bus.py`): `RECESSIVE = 1`. -/
def RECESSIVE : Nat := 1

/-- `ecu.py`: `TEC_ERROR_PASSIVE_THRESHOLD = 128`. -/
def TEC_ERROR_PASSIVE_THRESHOLD : Int := 128

/-- `ecu.py`: `TEC_BUS_OFF_THRESHOLD = 256`. -/
def TEC_BUS_OFF_THRESHOLD : Int := 256

/-- The three fault-confinement states of `ecu.py`'s `ECUState`. -/
inductive ECUState where
  | errorActive
  | errorPassive
  | busOff
deriving DecidableEq, Repr

/-- `can_bus.py`'s `CANFrame` dataclass. -/
structure CANFrame where
  can_id : Nat
  data : List Nat
  sender_id : String
  inject_recessive_at : Option Nat
  is_malicious : Bool
deriving DecidableEq, Repr

/-- The mutable per-node state of `ecu.py`'s `ECU`: TEC counter, confinement
state, receive buffer.  The `verbose` flag and bus back-pointer are omitted
(logging only / wiring only). -/
structure ECU where
  name : String
  tec : Int
  state : ECUState
  rxBuffer : List CANFrame
deriving DecidableEq, Repr

/-- `ECU._increment_tec`: `self.tec = min(self.tec + amount, 256)`. -/
def _increment_tec (e : ECU) (amount : Int) : ECU :=
  { e with tec := min (e.tec + amount) 256 }

/-- `ECU._decrement_tec`: `self.tec = max(self.tec - amount, 0)`. -/
def _decrement_tec (e : ECU) (amount : Int) : ECU :=
  { e with tec := max (e.tec - amount) 0 }

/-- `ECU._check_state_transition`: recompute the confinement state from the
current TEC value (the old state is only read for logging). -/
def _check_state_transition (e : ECU) : ECU :=
  { e with state :=
      if e.tec ≥ TEC_BUS_OFF_THRESHOLD then ECUState.busOff
      else if e.tec ≥ TEC_ERROR_PASSIVE_THRESHOLD then ECUState.errorPassive
      else ECUState.errorActive }

/-- Lookup in the bus's node dictionary `CANBus._nodes` (keyed by name). -/
def getNode (nodes : List ECU) (name : String) : Option ECU :=
  nodes.find? (fun n => n.name == name)

/-- Mutation of one entry of `CANBus._nodes` (Python mutates the node object
in place; here every entry carrying the name is rewritten). -/
def updateNode (nodes : List ECU) (name : String) (f : ECU → ECU) : List ECU :=
  nodes.map (fun n => if n.name == name then f n else n)

/-- `can_bus._id_to_bits`: the 11 identifier bits, MSB first. -/
def _id_to_bits (can_id : Nat) (length : Nat) : List Nat :=
  (List.range length).map (fun i => (can_id >>> (length - 1 - i)) &&& 1)

/-- `can_bus._data_to_bits`: payload bits, MSB first within each byte. -/
def _data_to_bits (data : List Nat) : List Nat :=
  data.flatMap (fun byte => (List.range 8).map (fun i => (byte >>> (7 - i)) &&& 1))

/-- The arbitration loop of `CANBus._do_transmit`: walk the two identifier
bit sequences in parallel; at the first differing position the side driving
`DOMINANT` wins; identical sequences give `"TIE"`.  (In the source this
winner is computed for the log; we embed it to verify the arbitration rule.) -/
def arbitration_winner (victim_id_bits attacker_id_bits : List Nat)
    (victim_sender attacker_sender : String) : String :=
  match victim_id_bits, attacker_id_bits with
  | [], _ => "TIE"
  | _, [] => "TIE"
  | vb :: vrest, ab :: arest =>
    if vb ≠ ab then
      if vb = DOMINANT then victim_sender else attacker_sender
    else arbitration_winner vrest arest victim_sender attacker_sender

/-- `CANBus._emit_error_flag`: the fault-confinement procedure run on a
detected bit error.  Mirrors the source's sequencing: attacker `+8`; victim
`+8` and recompute; if the victim is then not Bus-Off, victim `-1` and
recompute again; finally recompute the attacker's state.  The
`if victim_name` truthiness test in Python treats `None` *and* the empty
string as absent. -/
def _emit_error_flag (nodes : List ECU) (attacker_name : String)
    (victim_name : Option String) : List ECU :=
  let nodes1 :=
    match getNode nodes attacker_name with
    | some _ => updateNode nodes attacker_name (fun n => _increment_tec n 8)
    | none => nodes
  let victim_found : Option ECU :=
    match victim_name with
    | some vn => if vn = "" then none else getNode nodes1 vn
    | none => none
  let nodes2 :=
    match victim_name, victim_found with
    | some vn, some _ =>
      let nodesInc := updateNode nodes1 vn
        (fun n => _check_state_transition (_increment_tec n 8))
      match getNode nodesInc vn with
      | some v2 =>
        if v2.state ≠ ECUState.busOff then
          updateNode nodesInc vn (fun n => _check_state_transition (_decrement_tec n 1))
        else nodesInc
      | none => nodesInc
    | _, _ => nodes1
  match getNode nodes2 attacker_name with
  | some _ => updateNode nodes2 attacker_name _check_state_transition
  | none => nodes2

/-- `CANBus._deliver_frame`: append the frame to the receive buffer of every
registered node other than the sender. -/
def _deliver_frame (nodes : List ECU) (frame : CANFrame) : List ECU :=
  nodes.map (fun n =>
    if n.name == frame.sender_id then n
    else { n with rxBuffer := n.rxBuffer ++ [frame] })

/-- The bit sequence the victim drives, as computed inside
`CANBus._do_transmit`: identifier bits of the concurrent frame (or of the
frame itself when there is no concurrent frame) followed by its data bits. -/
def victim_full_bits (frame : CANFrame) (concurrent : Option CANFrame) : List Nat :=
  match concurrent with
  | some c => _id_to_bits c.can_id 11 ++ _data_to_bits c.data
  | none => _id_to_bits frame.can_id 11 ++ _data_to_bits frame.data

/-- `victim_sent` in `CANBus._do_transmit`:
`victim_full[inject_pos] if inject_pos < len(victim_full) else DOMINANT`. -/
def victim_sent_bit (frame : CANFrame) (concurrent : Option CANFrame)
    (inject_pos : Nat) : Nat :=
  let victim_full := victim_full_bits frame concurrent
  if inject_pos < victim_full.length then victim_full.getD inject_pos 0 else DOMINANT

/-- `CANBus._do_transmit` (state-relevant part).  The arbitration block is
log-only in the source and changes no state.  Returns the updated node set
and the boolean result of the transmission. -/
def _do_transmit (nodes : List ECU) (frame : CANFrame)
    (concurrent : Option CANFrame) : List ECU × Bool :=
  if frame.is_malicious ∧ frame.inject_recessive_at ≠ none then
    let inject_pos := frame.inject_recessive_at.getD 0
    let attacker_sent := RECESSIVE
    let victim_sent := victim_sent_bit frame concurrent inject_pos
    let bus_result :=
      if victim_sent = DOMINANT ∨ attacker_sent = DOMINANT then DOMINANT else RECESSIVE
    if attacker_sent = RECESSIVE ∧ bus_result = DOMINANT then
      (_emit_error_flag nodes frame.sender_id (concurrent.map (fun c => c.sender_id)), false)
    else
      (_deliver_frame nodes frame, true)
  else
    (_deliver_frame nodes frame, true)

/-- The inner loop of `CANBus.transmit_valid`: `n` times,
`if node.tec > 0: node._decrement_tec(1)`. -/
def drain_valid : Nat → ECU → ECU
  | 0, e => e
  | Nat.succ k, e => drain_valid k (if e.tec > 0 then _decrement_tec e 1 else e)

/-- `CANBus.transmit_valid`: `n` uncontested valid transmissions by the named
node; each decrements its TEC by 1 if positive, then the state is recomputed
once.  An unregistered name is a no-op. -/
def transmit_valid (nodes : List ECU) (sender_name : String) (n : Nat) : List ECU :=
  match getNode nodes sender_name with
  | none => nodes
  | some _ =>
    updateNode (updateNode nodes sender_name (drain_valid n)) sender_name
      _check_state_transition

/-- `ECU.send`: refuse to transmit when the sender is Bus-Off, otherwise call
`bus.transmit` (the lock plus `_do_transmit`). -/
def ECU_send (nodes : List ECU) (sender_name : String) (frame : CANFrame)
    (concurrent : Option CANFrame) : List ECU × Bool :=
  match getNode nodes sender_name with
  | some s =>
    if s.state = ECUState.busOff then (nodes, false)
    else _do_transmit nodes frame concurrent
  | none => (nodes, false)

/-- `attacker_ecu.py`: `N_VALID_MSGS = 5`. -/
def N_VALID_MSGS : Nat := 5

/-- `attacker_ecu.py`: `SKIP_TEC_THRESHOLD = 6`. -/
def SKIP_TEC_THRESHOLD : Int := 6

/-- `attacker_ecu.py`: the pool of injection positions known to coincide with
dominant bits of the victim's static payload prefix. -/
def SAFE_INJECT_POSITIONS : List Nat := [13, 18, 20, 22, 25, 28, 34]

/-- `AttackerECU._make_attack_frame`, with the `random.choice` of the
injection position made an explicit argument. -/
def _make_attack_frame (attacker_name : String) (target_can_id : Nat)
    (victim_frame : CANFrame) (inject_pos : Nat) : CANFrame :=
  { can_id := target_can_id
    data := victim_frame.data
    sender_id := attacker_name
    inject_recessive_at := some inject_pos
    is_malicious := true }

/-- The shared victim-side step of `_execute_skip` / `_execute_mistimed`:
`if victim_node and victim_node.state != BUS_OFF: victim -1, recompute`. -/
def victim_transmits_ok (nodes : List ECU) (victim_sender : String) : List ECU :=
  match getNode nodes victim_sender with
  | some v =>
    if v.state ≠ ECUState.busOff then
      updateNode nodes victim_sender
        (fun n => _check_state_transition (_decrement_tec n 1))
    else nodes
  | none => nodes

/-- `AttackerECU._execute_skip`: the victim transmits uncontested (`-1`,
recompute, skipped when Bus-Off), then the attacker drains its own TEC with
`N_VALID_MSGS` valid frames. -/
def _execute_skip (nodes : List ECU) (attacker_name : String)
    (victim_frame : CANFrame) : List ECU :=
  let nodes1 := victim_transmits_ok nodes victim_frame.sender_id
  transmit_valid nodes1 attacker_name N_VALID_MSGS

/-- `AttackerECU._execute_mistimed`: the injection misses, the victim
transmits successfully (`-1`, recompute, skipped when Bus-Off), the attacker's
counter and state are untouched. -/
def _execute_mistimed (nodes : List ECU) (victim_frame : CANFrame) : List ECU :=
  victim_transmits_ok nodes victim_frame.sender_id

/-- `AttackerECU._execute_attack` in deterministic mode (jitter probability
0, so the mis-timed branch is never taken): build the attack frame, send it
concurrently with the victim's frame, then drain with `N_VALID_MSGS` valid
frames. -/
def _execute_attack (nodes : List ECU) (attacker_name : String)
    (target_can_id : Nat) (victim_frame : CANFrame) (inject_pos : Nat) : List ECU :=
  let attack_frame := _make_attack_frame attacker_name target_can_id victim_frame inject_pos
  let nodes1 := (ECU_send nodes attacker_name attack_frame (some victim_frame)).1
  transmit_valid nodes1 attacker_name N_VALID_MSGS

/-- `AttackerECU.attack` in deterministic mode: refuse unless Error-Active,
skip when `tec ≥ SKIP_TEC_THRESHOLD`, otherwise run a full attack cycle. -/
def attack (nodes : List ECU) (attacker_name : String) (target_can_id : Nat)
    (victim_frame : CANFrame) (inject_pos : Nat) : List ECU × Bool :=
  match getNode nodes attacker_name with
  | none => (nodes, false)
  | some a =>
    if a.state ≠ ECUState.errorActive then (nodes, false)
    else if a.tec ≥ SKIP_TEC_THRESHOLD then
      (_execute_skip nodes attacker_name victim_frame, true)
    else
      (_execute_attack nodes attacker_name target_can_id victim_frame inject_pos, true)

/-- `VictimECU._make_frame`: CAN-ID `0x100`, payload `[0xDE, 0xAD, 0xBE, seq]`. -/
def victim_make_frame (seq : Nat) : CANFrame :=
  { can_id := 0x100
    data := [0xDE, 0xAD, 0xBE, seq]
    sender_id := "VICTIM"
    inject_recessive_at := none
    is_malicious := false }

/-- An abstract increment/decrement call on a node's TEC counter, for
stating the counter-clamping invariant over arbitrary operation sequences. -/
inductive TecOp where
  | inc (amount : Nat)
  | dec (amount : Nat)
deriving DecidableEq, Repr

/-- Apply one `TecOp` via the source's counter operations. -/
def applyTecOp (e : ECU) : TecOp → ECU
  | TecOp.inc a => _increment_tec e (a : Int)
  | TecOp.dec a => _decrement_tec e (a : Int)

/-- Apply a sequence of `TecOp`s in order. -/
def applyTecOps (e : ECU) : List TecOp → ECU
  | [] => e
  | op :: rest => applyTecOps (applyTecOp e op) rest

/-- The bits of `a` from bit `n-1` down to bit `0` (MSB first), defined
recursively; proved equal to `_id_to_bits a n` at `n = 11`. -/
def revBits : Nat → Nat → List Nat
  | 0, _ => []
  | Nat.succ n, a => ((a >>> n) &&& 1) :: revBits n a

/-- The state of the orchestration loop of `simulation.py`: the bus's nodes,
the victim's sequence counter, and whether the loop has terminated (victim
Bus-Off, attacker no longer Error-Active, or attack refused). -/
structure SimState where
  nodes : List ECU
  seq : Nat
  halted : Bool
deriving DecidableEq, Repr

/-- Initial state of `run_simulation`: victim and attacker registered with
TEC 0, Error-Active. -/
def simInit : SimState :=
  { nodes := [ { name := "VICTIM", tec := 0, state := ECUState.errorActive, rxBuffer := [] },
               { name := "ATTACKER", tec := 0, state := ECUState.errorActive, rxBuffer := [] } ]
    seq := 0
    halted := false }

/-- One iteration of the main loop of `run_simulation` in deterministic
mode: the victim broadcasts (the loop stops if it is Bus-Off), the attacker
runs its per-cycle decision procedure, and the loop stops when the attack
was refused, the victim went Bus-Off, or the attacker left Error-Active. -/
def simCycle (inject_pos : Nat) (s : SimState) : SimState :=
  if s.halted then s else
  match getNode s.nodes "VICTIM" with
  | none => { s with halted := true }
  | some v =>
    if v.state = ECUState.busOff then { s with halted := true }
    else
      let seq' := (s.seq + 1) &&& 0xFF
      let vframe := victim_make_frame seq'
      let r := attack s.nodes "ATTACKER" 0x100 vframe inject_pos
      if r.2 then
        let victimBusOff : Bool :=
          match getNode r.1 "VICTIM" with
          | some v2 => decide (v2.state = ECUState.busOff)
          | none => true
        let attackerNotActive : Bool :=
          match getNode r.1 "ATTACKER" with
          | some a2 => decide (a2.state ≠ ECUState.errorActive)
          | none => true
        { nodes := r.1, seq := seq', halted := victimBusOff || attackerNotActive }
      else { nodes := r.1, seq := seq', halted := true }

/-- Run `k` cycles of the deterministic simulation; `choice i` is the
injection position the attacker picks in cycle `i` (the source draws it
from `SAFE_INJECT_POSITIONS` with `random.choice`). -/
def simRun (choice : Nat → Nat) : Nat → SimState
  | 0 => simInit
  | Nat.succ k => simCycle (choice k) (simRun choice k)

/-- The long-run drift property at the amended bound: at every cycle
boundary `0..63` the attacker's TEC is within `[0, 8]` and its state is
Error-Active, and at some boundary within the first 63 cycles the victim's
TEC has reached 256. -/
def simBoundariesOk (choice : Nat → Nat) : Bool :=
  ((List.range 64).all (fun k =>
    match getNode (simRun choice k).nodes "ATTACKER" with
    | some a => decide (0 ≤ a.tec) && decide (a.tec ≤ 8)
        && decide (a.state = ECUState.errorActive)
    | none => false))
  &&
  ((List.range 64).any (fun k =>
    match getNode (simRun choice k).nodes "VICTIM" with
    | some v => decide (256 ≤ v.tec)
    | none => false))

/-- The victim's TEC stays strictly below 256 at every cycle boundary of the
first 60 cycles of the deterministic run with constant injection position 13. -/
def simNoBusoffWithin60 : Bool :=
  (List.range 61).all (fun k =>
    match getNode (simRun (fun _ => 13) k).nodes "VICTIM" with
    | some v => decide (v.tec < 256)
    | none => false)

/-- Concrete two-node bus for the bit-error clamping counterexample:
victim TEC 255 (Error-Passive), attacker TEC 0. -/
def clamp_demo_nodes : List ECU :=
  [ { name := "VICTIM", tec := 255, state := ECUState.errorPassive, rxBuffer := [] },
    { name := "ATTACKER", tec := 0, state := ECUState.errorActive, rxBuffer := [] } ]

/-- A Bus-Off node with TEC 256 (the value every node that ever reaches
Bus-Off holds, since increments clamp at 256). -/
def busoff_node : ECU :=
  { name := "VICTIM", tec := 256, state := ECUState.busOff, rxBuffer := [] }

/-- Concrete two-node bus (both counters 0) for the out-of-range injection
scenario. -/
def oor_nodes : List ECU :=
  [ { name := "VICTIM", tec := 0, state := ECUState.errorActive, rxBuffer := [] },
    { name := "ATTACKER", tec := 0, state := ECUState.errorActive, rxBuffer := [] } ]

/-- A malicious frame whose injection position 50 is out of range: the
victim's full bit sequence has `11 + 8*4 = 43` bits. -/
def oor_frame : CANFrame :=
  _make_attack_frame "ATTACKER" 0x100 (victim_make_frame 1) 50

/-- Concrete two-node bus for the skip-cycle arithmetic scenario:
victim TEC 50, attacker TEC 6. -/
def skip_demo_nodes : List ECU :=
  [ { name := "VICTIM", tec := 50, state := ECUState.errorActive, rxBuffer := [] },
    { name := "ATTACKER", tec := 6, state := ECUState.errorActive, rxBuffer := [] } ]

/-- A victim node with TEC 0 (not Bus-Off), for the mis-timed clamping
counterexample. -/
def zero_tec_victim : ECU :=
  { name := "VICTIM", tec := 0, state := ECUState.errorActive, rxBuffer := [] }

/-- A victim node with TEC 5, for the mis-timed cycle witness. -/
def five_tec_victim : ECU :=
  { name := "VICTIM", tec := 5, state := ECUState.errorActive, rxBuffer := [] }

/-- Concrete two-node bus for the successful-transmission witness. -/
def deliver_demo_nodes : List ECU :=
  [ { name := "VICTIM", tec := 3, state := ECUState.errorActive, rxBuffer := [] },
    { name := "ATTACKER", tec := 4, state := ECUState.errorActive, rxBuffer := [] } ]

/-! ## Helper lemmas -/

lemma check_state_name (e : ECU) : (_check_state_transition e).name = e.name := rfl

lemma getNode_updateNode_self (nodes : List ECU) (name : String) (f : ECU → ECU)
    (hf : ∀ e, (f e).name = e.name) :
    getNode (updateNode nodes name f) name = (getNode nodes name).map f := by
  induction nodes with
  | nil => rfl
  | cons x xs ih =>
    by_cases h : x.name = name
    · simp [getNode, updateNode, List.find?_cons, h, hf x]
    · simp only [getNode, updateNode, List.map_cons] at ih ⊢
      rw [if_neg (by simp [h])]
      rw [List.find?_cons_of_neg _ (by simp [h]), List.find?_cons_of_neg _ (by simp [h])]
      exact ih

lemma getNode_updateNode_ne (nodes : List ECU) (name name' : String) (f : ECU → ECU)
    (hf : ∀ e, (f e).name = e.name) (h : name' ≠ name) :
    getNode (updateNode nodes name f) name' = getNode nodes name' := by
  induction nodes with
  | nil => rfl
  | cons x xs ih =>
    by_cases hx : x.name = name
    · simp only [getNode, updateNode, List.map_cons] at ih ⊢
      rw [if_pos (by simp [hx])]
      rw [List.find?_cons_of_neg _ (by simp [hf x, hx, Ne.symm h]),
          List.find?_cons_of_neg _ (by simp [hx, Ne.symm h])]
      exact ih
    · simp only [getNode, updateNode, List.map_cons] at ih ⊢
      rw [if_neg (by simp [hx])]
      by_cases hx' : x.name = name'
      · rw [List.find?_cons_of_pos _ (by simp [hx']), List.find?_cons_of_pos _ (by simp [hx'])]
      · rw [List.find?_cons_of_neg _ (by simp [hx']), List.find?_cons_of_neg _ (by simp [hx'])]
        exact ih

lemma tec_range_invariant (ops : List TecOp) : ∀ e : ECU, 0 ≤ e.tec → e.tec ≤ 256 →
    0 ≤ (applyTecOps e ops).tec ∧ (applyTecOps e ops).tec ≤ 256 := by
  induction ops with
  | nil => intro e h0 h1; exact ⟨h0, h1⟩
  | cons op rest ih =>
    intro e h0 h1
    cases op with
    | inc a =>
      have ha : (0 : Int) ≤ (a : Int) := Int.natCast_nonneg a
      simp only [applyTecOps, applyTecOp]
      exact ih _ (by simp [_increment_tec]; try omega) (by simp [_increment_tec]; try omega)
    | dec a =>
      have ha : (0 : Int) ≤ (a : Int) := Int.natCast_nonneg a
      simp only [applyTecOps, applyTecOp]
      exact ih _ (by simp [_decrement_tec]; try omega) (by simp [_decrement_tec]; try omega)

/-! ## Claim theorems -/

/-- C4: for every counter value `c`, the recomputed confinement state is
Error-Active iff `c < 128`, Error-Passive iff `128 ≤ c < 256`, and Bus-Off
iff `c ≥ 256`, independently of the node's prior state, and
`_check_state_transition` is idempotent. -/
theorem state_pure_function_of_tec (e : ECU) :
    ((_check_state_transition e).state = ECUState.errorActive ↔ e.tec < 128) ∧
    ((_check_state_transition e).state = ECUState.errorPassive ↔ 128 ≤ e.tec ∧ e.tec < 256) ∧
    ((_check_state_transition e).state = ECUState.busOff ↔ 256 ≤ e.tec) ∧
    (∀ s : ECUState,
      (_check_state_transition { e with state := s }).state = (_check_state_transition e).state) ∧
    _check_state_transition (_check_state_transition e) = _check_state_transition e := by
  unfold _check_state_transition TEC_BUS_OFF_THRESHOLD TEC_ERROR_PASSIVE_THRESHOLD
  refine ⟨?_, ?_, ?_, fun s => rfl, ?_⟩ <;> split_ifs <;> (simp_all; try omega)

/-- C5: starting from counter 0, every prefix of every sequence of
increment/decrement operations leaves the transmit-error counter within
`[0, 256]`. -/
theorem tec_counter_clamped (name : String) (st : ECUState) (rx : List CANFrame)
    (ops : List TecOp) (n : Nat) :
    0 ≤ (applyTecOps { name := name, tec := 0, state := st, rxBuffer := rx } (ops.take n)).tec ∧
    (applyTecOps { name := name, tec := 0, state := st, rxBuffer := rx } (ops.take n)).tec ≤ 256 :=
  tec_range_invariant (ops.take n) _ (le_refl 0) (by norm_num)

/-- C8: one skip cycle from attacker TEC 6 and victim TEC 50 yields attacker
TEC 1 and victim TEC 49; the victim is decremented by 1 with state
recomputed, the attacker by 1 for each of the 5 valid frames. -/
theorem skip_cycle_arithmetic :
    _execute_skip skip_demo_nodes "ATTACKER" (victim_make_frame 1) =
      [ { name := "VICTIM", tec := 49, state := ECUState.errorActive, rxBuffer := [] },
        { name := "ATTACKER", tec := 1, state := ECUState.errorActive, rxBuffer := [] } ] := by
  decide

/-- C3 counterexample: a Bus-Off node (TEC 256) put through a single
`transmit_valid` decrement comes back in Error-Passive — `transmit_valid`
has no Bus-Off guard, so Bus-Off is not terminal under it. -/
theorem busoff_reverted_by_transmit_valid_cex :
    busoff_node.state = ECUState.busOff ∧
    transmit_valid [busoff_node] "VICTIM" 1 =
      [ { name := "VICTIM", tec := 255, state := ECUState.errorPassive, rxBuffer := [] } ] ∧
    ECUState.errorPassive ≠ ECUState.busOff := by
  decide

/-- C3 amended: the decrement paths that carry the source's Bus-Off guard —
the victim decrements of skip and mis-timed cycles (and the fault-confinement
retransmission, which shares the same guard shape) — skip a Bus-Off node
entirely, leaving counter and state unchanged; only the unguarded
`transmit_valid` can move a Bus-Off node's state back down. -/
theorem busoff_terminal_under_guarded_decrements (nodes : List ECU) (vf : CANFrame)
    (v : ECU) (hv : getNode nodes vf.sender_id = some v)
    (hb : v.state = ECUState.busOff) :
    victim_transmits_ok nodes vf.sender_id = nodes ∧
    _execute_mistimed nodes vf = nodes := by
  have h1 : victim_transmits_ok nodes vf.sender_id = nodes := by
    unfold victim_transmits_ok
    rw [hv]
    simp [hb]
  exact ⟨h1, h1⟩

/-- C3 witness: the guarded decrement paths leave a concrete Bus-Off node
untouched. -/
theorem busoff_terminal_under_guarded_decrements_witness :
    victim_transmits_ok [busoff_node] "VICTIM" = [busoff_node] ∧
    _execute_mistimed [busoff_node] (victim_make_frame 1) = [busoff_node] :=
  busoff_terminal_under_guarded_decrements [busoff_node] (victim_make_frame 1)
    busoff_node (by decide) (by decide)

/-- C9 counterexample: a mis-timed cycle with the victim at TEC 0 (not
Bus-Off) leaves the counter at 0, which is not a decrement by exactly 1. -/
theorem mistimed_decrement_clamped_cex :
    zero_tec_victim.tec = 0 ∧ zero_tec_victim.state ≠ ECUState.busOff ∧
    _execute_mistimed [zero_tec_victim] (victim_make_frame 1) =
      [ { name := "VICTIM", tec := 0, state := ECUState.errorActive, rxBuffer := [] } ] ∧
    (0 : Int) ≠ 0 - 1 := by
  decide

/-- C9 amended: a mis-timed cycle decrements the victim's counter by 1
floored at 0 (`max (tec - 1) 0`, so by exactly 1 whenever it was positive)
and recomputes its state, and leaves every other node — in particular the
attacker — completely unchanged. -/
theorem mistimed_cycle_effect (nodes : List ECU) (vf : CANFrame) (v : ECU)
    (hv : getNode nodes vf.sender_id = some v) (hb : v.state ≠ ECUState.busOff) :
    getNode (_execute_mistimed nodes vf) vf.sender_id =
      some (_check_state_transition { v with tec := max (v.tec - 1) 0 }) ∧
    ∀ name, name ≠ vf.sender_id →
      getNode (_execute_mistimed nodes vf) name = getNode nodes name := by
  unfold _execute_mistimed victim_transmits_ok
  rw [hv]
  dsimp only
  rw [if_pos hb]
  constructor
  · rw [getNode_updateNode_self nodes vf.sender_id
      (fun n => _check_state_transition (_decrement_tec n 1)) (fun e => rfl), hv]
    rfl
  · intro name hn
    exact getNode_updateNode_ne nodes vf.sender_id name
      (fun n => _check_state_transition (_decrement_tec n 1)) (fun e => rfl) hn

/-- C9 witness: a concrete mis-timed cycle takes the victim from TEC 5 to
TEC 4. -/
theorem mistimed_cycle_effect_witness :
    getNode (_execute_mistimed [five_tec_victim] (victim_make_frame 1)) "VICTIM" =
      some { name := "VICTIM", tec := 4, state := ECUState.errorActive, rxBuffer := [] } :=
  (mistimed_cycle_effect [five_tec_victim] (victim_make_frame 1) five_tec_victim
    (by decide) (by decide)).1

lemma do_transmit_cases (nodes : List ECU) (frame : CANFrame) (concurrent : Option CANFrame) :
    _do_transmit nodes frame concurrent = (_deliver_frame nodes frame, true) ∨
    (_do_transmit nodes frame concurrent).2 = false := by
  unfold _do_transmit
  dsimp only
  split
  · split
    · right; rfl
    · left; rfl
  · left; rfl

/-- C10: whenever `transmit` returns `true`, no node's counter or state is
touched: the result is exactly the input node list with the frame appended
to the receive buffer of every node other than the sender (the sender's own
buffer unchanged). -/
theorem successful_transmit_only_delivers (nodes : List ECU) (frame : CANFrame)
    (concurrent : Option CANFrame)
    (h : (_do_transmit nodes frame concurrent).2 = true) :
    (_do_transmit nodes frame concurrent).1 =
      nodes.map (fun n =>
        if n.name == frame.sender_id then n
        else { n with rxBuffer := n.rxBuffer ++ [frame] }) := by
  rcases do_transmit_cases nodes frame concurrent with hcase | hcase
  · rw [hcase]
    simp [_deliver_frame]
  · rw [h] at hcase
    cases hcase

/-- C10 witness: a concrete successful (non-malicious) transmission delivers
to the non-sender only. -/
theorem successful_transmit_only_delivers_witness :
    (_do_transmit deliver_demo_nodes (victim_make_frame 1) none).1 =
      deliver_demo_nodes.map (fun n =>
        if n.name == (victim_make_frame 1).sender_id then n
        else { n with rxBuffer := n.rxBuffer ++ [victim_make_frame 1] }) :=
  successful_transmit_only_delivers deliver_demo_nodes (victim_make_frame 1) none (by decide)

lemma do_transmit_bit_error (nodes : List ECU) (frame : CANFrame) (concurrent : CANFrame)
    (pos : Nat) (hm : frame.is_malicious = true)
    (hp : frame.inject_recessive_at = some pos)
    (hlt : pos < (victim_full_bits frame (some concurrent)).length)
    (hdom : (victim_full_bits frame (some concurrent)).getD pos 0 = DOMINANT) :
    _do_transmit nodes frame (some concurrent) =
      (_emit_error_flag nodes frame.sender_id (some concurrent.sender_id), false) := by
  have hs : victim_sent_bit frame (some concurrent) pos = DOMINANT := by
    unfold victim_sent_bit
    rw [if_pos hlt]
    exact hdom
  unfold _do_transmit
  rw [hp]
  simp [hm, hs, DOMINANT, RECESSIVE]

lemma emit_error_flag_spec (nodes : List ECU) (aname vname : String) (a v : ECU)
    (ha : getNode nodes aname = some a) (hv : getNode nodes vname = some v)
    (hne : vname ≠ aname) (hvn : vname ≠ "") :
    getNode (_emit_error_flag nodes aname (some vname)) aname =
      some (_check_state_transition (_increment_tec a 8)) ∧
    getNode (_emit_error_flag nodes aname (some vname)) vname =
      some (if (_check_state_transition (_increment_tec v 8)).state ≠ ECUState.busOff
            then _check_state_transition
              (_decrement_tec (_check_state_transition (_increment_tec v 8)) 1)
            else _check_state_transition (_increment_tec v 8)) := by
  unfold _emit_error_flag
  rw [ha]
  dsimp only
  rw [if_neg (by simp [hvn])]
  rw [getNode_updateNode_ne nodes aname vname (fun n => _increment_tec n 8) (fun e => rfl) hne,
    hv]
  dsimp only
  rw [getNode_updateNode_self (updateNode nodes aname (fun n => _increment_tec n 8)) vname
    (fun n => _check_state_transition (_increment_tec n 8)) (fun e => rfl)]
  rw [getNode_updateNode_ne nodes aname vname (fun n => _increment_tec n 8) (fun e => rfl) hne,
    hv]
  simp only [Option.map_some']
  by_cases hcond : (_check_state_transition (_increment_tec v 8)).state ≠ ECUState.busOff
  · rw [if_pos hcond]
    have hga : getNode
        (updateNode (updateNode (updateNode nodes aname (fun n => _increment_tec n 8)) vname
          (fun n => _check_state_transition (_increment_tec n 8))) vname
          (fun n => _check_state_transition (_decrement_tec n 1))) aname =
        some (_increment_tec a 8) := by
      rw [getNode_updateNode_ne _ vname aname
          (fun n => _check_state_transition (_decrement_tec n 1)) (fun e => rfl) (Ne.symm hne),
        getNode_updateNode_ne _ vname aname
          (fun n => _check_state_transition (_increment_tec n 8)) (fun e => rfl) (Ne.symm hne),
        getNode_updateNode_self nodes aname (fun n => _increment_tec n 8) (fun e => rfl), ha]
      rfl
    rw [hga]
    dsimp only
    constructor
    · rw [getNode_updateNode_self _ aname _check_state_transition (fun e => rfl), hga]
      rfl
    · rw [getNode_updateNode_ne _ aname vname _check_state_transition (fun e => rfl) hne,
        getNode_updateNode_self _ vname
          (fun n => _check_state_transition (_decrement_tec n 1)) (fun e => rfl),
        getNode_updateNode_self _ vname
          (fun n => _check_state_transition (_increment_tec n 8)) (fun e => rfl),
        getNode_updateNode_ne nodes aname vname (fun n => _increment_tec n 8) (fun e => rfl) hne,
        hv]
      simp [if_pos hcond]
  · rw [if_neg hcond]
    have hga : getNode
        (updateNode (updateNode nodes aname (fun n => _increment_tec n 8)) vname
          (fun n => _check_state_transition (_increment_tec n 8))) aname =
        some (_increment_tec a 8) := by
      rw [getNode_updateNode_ne _ vname aname
          (fun n => _check_state_transition (_increment_tec n 8)) (fun e => rfl) (Ne.symm hne),
        getNode_updateNode_self nodes aname (fun n => _increment_tec n 8) (fun e => rfl), ha]
      rfl
    rw [hga]
    dsimp only
    constructor
    · rw [getNode_updateNode_self _ aname _check_state_transition (fun e => rfl), hga]
      rfl
    · rw [getNode_updateNode_ne _ aname vname _check_state_transition (fun e => rfl) hne,
        getNode_updateNode_self _ vname
          (fun n => _check_state_transition (_increment_tec n 8)) (fun e => rfl),
        getNode_updateNode_ne nodes aname vname (fun n => _increment_tec n 8) (fun e => rfl) hne,
        hv]
      simp [if_neg hcond]

/-- The malicious frame used for the C2 concrete scenarios: mirrors the
victim's identifier and payload, injecting at safe position 13. -/
def clamp_demo_frame : CANFrame :=
  _make_attack_frame "ATTACKER" 0x100 (victim_make_frame 1) 13

/-- C2 counterexample: with the victim already at TEC 255, the detected bit
error drives its counter to 256 (the increment clamps there), not to
`255 + 8 = 263` — so the counters do not always increase by exactly 8. -/
theorem bit_error_increment_clamped_cex :
    (getNode (_do_transmit clamp_demo_nodes clamp_demo_frame
        (some (victim_make_frame 1))).1 "VICTIM").map ECU.tec = some 256 ∧
    (256 : Int) ≠ 255 + 8 := by
  decide

/-- C2 amended: for every malicious frame whose injection position lands on
a bit the concurrent (victim) frame drives dominant, `transmit` returns
`false`, and the fault-confinement procedure adds 8 to both senders'
counters clamped at 256 (exactly `+8` whenever the result stays below the
clamp), recomputes each node's state, and — if and only if the victim's
recomputed state is not Bus-Off — decrements the victim's counter by 1
(floored at 0) and recomputes its state again. -/
theorem bit_error_fault_confinement (nodes : List ECU) (frame concurrent : CANFrame)
    (pos : Nat) (a v : ECU)
    (hm : frame.is_malicious = true)
    (hp : frame.inject_recessive_at = some pos)
    (hlt : pos < (victim_full_bits frame (some concurrent)).length)
    (hdom : (victim_full_bits frame (some concurrent)).getD pos 0 = DOMINANT)
    (ha : getNode nodes frame.sender_id = some a)
    (hv : getNode nodes concurrent.sender_id = some v)
    (hne : concurrent.sender_id ≠ frame.sender_id)
    (hvn : concurrent.sender_id ≠ "") :
    (_do_transmit nodes frame (some concurrent)).2 = false ∧
    getNode (_do_transmit nodes frame (some concurrent)).1 frame.sender_id =
      some (_check_state_transition (_increment_tec a 8)) ∧
    (getNode (_do_transmit nodes frame (some concurrent)).1 frame.sender_id).map ECU.tec =
      some (min (a.tec + 8) 256) ∧
    getNode (_do_transmit nodes frame (some concurrent)).1 concurrent.sender_id =
      some (if (_check_state_transition (_increment_tec v 8)).state ≠ ECUState.busOff
            then _check_state_transition
              (_decrement_tec (_check_state_transition (_increment_tec v 8)) 1)
            else _check_state_transition (_increment_tec v 8)) ∧
    (getNode (_do_transmit nodes frame (some concurrent)).1 concurrent.sender_id).map ECU.tec =
      some (if min (v.tec + 8) 256 < 256 then max (min (v.tec + 8) 256 - 1) 0
            else min (v.tec + 8) 256) := by
  have hdo := do_transmit_bit_error nodes frame concurrent pos hm hp hlt hdom
  have hspec := emit_error_flag_spec nodes frame.sender_id concurrent.sender_id a v ha hv hne hvn
  have hstate : (_check_state_transition (_increment_tec v 8)).state ≠ ECUState.busOff ↔
      min (v.tec + 8) 256 < 256 := by
    unfold _check_state_transition _increment_tec TEC_BUS_OFF_THRESHOLD
      TEC_ERROR_PASSIVE_THRESHOLD
    dsimp only
    split_ifs <;> simp <;> omega
  rw [hdo]
  refine ⟨rfl, hspec.1, ?_, hspec.2, ?_⟩
  · rw [hspec.1]
    rfl
  · rw [hspec.2]
    simp only [Option.map_some']
    rw [apply_ite ECU.tec]
    have hA : (_check_state_transition
        (_decrement_tec (_check_state_transition (_increment_tec v 8)) 1)).tec =
        max (min (v.tec + 8) 256 - 1) 0 := rfl
    have hB : (_check_state_transition (_increment_tec v 8)).tec = min (v.tec + 8) 256 := rfl
    rw [hA, hB]
    by_cases hc : (_check_state_transition (_increment_tec v 8)).state ≠ ECUState.busOff
    · rw [if_pos hc, if_pos (hstate.mp hc)]
    · rw [if_neg hc, if_neg (fun hlt2 => hc (hstate.mpr hlt2))]

/-- C2 witness: the amended statement applied to the concrete bus with the
victim at TEC 255 and the attacker at TEC 0. -/
theorem bit_error_fault_confinement_witness :
    (getNode (_do_transmit clamp_demo_nodes clamp_demo_frame
        (some (victim_make_frame 1))).1 "ATTACKER").map ECU.tec =
      some (min ((0 : Int) + 8) 256) ∧
    (getNode (_do_transmit clamp_demo_nodes clamp_demo_frame
        (some (victim_make_frame 1))).1 "VICTIM").map ECU.tec =
      some (if min ((255 : Int) + 8) 256 < 256 then max (min ((255 : Int) + 8) 256 - 1) 0
            else min ((255 : Int) + 8) 256) := by
  have h := bit_error_fault_confinement clamp_demo_nodes clamp_demo_frame
    (victim_make_frame 1) 13
    { name := "ATTACKER", tec := 0, state := ECUState.errorActive, rxBuffer := [] }
    { name := "VICTIM", tec := 255, state := ECUState.errorPassive, rxBuffer := [] }
    rfl rfl (by decide) (by decide) (by decide) (by decide) (by decide) (by decide)
  exact ⟨h.2.2.1, h.2.2.2.2⟩

/-- C6: an out-of-range injection position (50, with only `11 + 32 = 43`
victim bits) is not rejected: the code silently substitutes `DOMINANT` for
the victim's bit, detects a "bit error", applies the full `+8` penalties to
both nodes and returns `false` — instead of failing fast on the violated
precondition. -/
theorem out_of_range_injection_substitutes_dominant :
    (victim_full_bits oor_frame (some (victim_make_frame 1))).length = 43 ∧
    victim_sent_bit oor_frame (some (victim_make_frame 1)) 50 = DOMINANT ∧
    _do_transmit oor_nodes oor_frame (some (victim_make_frame 1)) =
      ([ { name := "VICTIM", tec := 7, state := ECUState.errorActive, rxBuffer := [] },
         { name := "ATTACKER", tec := 8, state := ECUState.errorActive, rxBuffer := [] } ],
       false) := by
  decide

lemma bit_eq_testBit (y k : Nat) : (y >>> k) &&& 1 = (y.testBit k).toNat := by
  rw [Nat.shiftRight_eq_div_pow, Nat.and_one_is_mod, Nat.testBit_to_div_mod]
  rcases Nat.mod_two_eq_zero_or_one (y / 2 ^ k) with h | h <;> simp [h]

lemma revBits_congr : ∀ (n a b : Nat),
    (∀ k, k < n → (a >>> k) &&& 1 = (b >>> k) &&& 1) → revBits n a = revBits n b := by
  intro n
  induction n with
  | zero => intro a b h; rfl
  | succ n ih =>
    intro a b h
    simp only [revBits, List.cons.injEq]
    exact ⟨h n (Nat.lt_succ_self n), ih a b (fun k hk => h k (Nat.lt_succ_of_lt hk))⟩

lemma revBits_mod (n a : Nat) : revBits n (a % 2 ^ n) = revBits n a := by
  apply revBits_congr
  intro k hk
  rw [bit_eq_testBit, bit_eq_testBit, Nat.testBit_mod_two_pow]
  simp [hk]

lemma id_to_bits_eq_revBits (a : Nat) : _id_to_bits a 11 = revBits 11 a := rfl

lemma arb_tie : ∀ (xs : List Nat) (vs as_ : String),
    arbitration_winner xs xs vs as_ = "TIE" := by
  intro xs
  induction xs with
  | nil => intro vs as_; rfl
  | cons x rest ih =>
    intro vs as_
    simp only [arbitration_winner, ne_eq, eq_self_iff_true, not_true_eq_false, if_false]
    exact ih vs as_

lemma arb_lower (n : Nat) : ∀ (a b : Nat) (vs as_ : String), a < 2 ^ n → b < 2 ^ n →
    a ≠ b → arbitration_winner (revBits n a) (revBits n b) vs as_ =
      if a < b then vs else as_ := by
  induction n with
  | zero =>
    intro a b vs as_ ha hb hne
    simp only [pow_zero, Nat.lt_one_iff] at ha hb
    omega
  | succ n ih =>
    intro a b vs as_ ha hb hne
    have h2 : (0 : Nat) < 2 ^ n := Nat.two_pow_pos n
    have hda : a / 2 ^ n < 2 := by
      rw [Nat.div_lt_iff_lt_mul h2]
      rw [pow_succ] at ha
      omega
    have hdb : b / 2 ^ n < 2 := by
      rw [Nat.div_lt_iff_lt_mul h2]
      rw [pow_succ] at hb
      omega
    have hba : (a >>> n) &&& 1 = a / 2 ^ n := by
      rw [Nat.shiftRight_eq_div_pow, Nat.and_one_is_mod, Nat.mod_eq_of_lt hda]
    have hbb : (b >>> n) &&& 1 = b / 2 ^ n := by
      rw [Nat.shiftRight_eq_div_pow, Nat.and_one_is_mod, Nat.mod_eq_of_lt hdb]
    have hma := Nat.div_add_mod a (2 ^ n)
    have hmb := Nat.div_add_mod b (2 ^ n)
    have hma' : a % 2 ^ n < 2 ^ n := Nat.mod_lt a h2
    have hmb' : b % 2 ^ n < 2 ^ n := Nat.mod_lt b h2
    simp only [revBits, arbitration_winner, hba, hbb]
    by_cases hd : a / 2 ^ n = b / 2 ^ n
    · rw [if_neg (by simp [hd])]
      have hne' : a % 2 ^ n ≠ b % 2 ^ n :=
        fun hcontra => hne (by rw [← hma, ← hmb, hd, hcontra])
      have hiff : a < b ↔ a % 2 ^ n < b % 2 ^ n := by
        conv_lhs => rw [← hma, ← hmb, hd]
        exact add_lt_add_iff_left _
      rw [← revBits_mod n a, ← revBits_mod n b,
        ih (a % 2 ^ n) (b % 2 ^ n) vs as_ hma' hmb' hne']
      by_cases hab : a < b
      · rw [if_pos (hiff.mp hab), if_pos hab]
      · rw [if_neg (fun hmod => hab (hiff.mpr hmod)), if_neg hab]
    · rw [if_pos (by simp [hd])]
      interval_cases hqa : a / 2 ^ n <;> interval_cases hqb : b / 2 ^ n
      · exact absurd rfl hd
      · have hab : a < b := by omega
        rw [if_pos (show (0 : Nat) = DOMINANT from rfl), if_pos hab]
      · have hab : ¬a < b := by omega
        rw [if_neg (by simp [DOMINANT]), if_neg hab]
      · exact absurd rfl hd

/-- C7: for concurrently transmitted 11-bit identifiers, the computed
arbitration winner at the first differing bit is the side driving dominant,
which is exactly the side with the numerically lower identifier — regardless
of which side is the victim and which the attacker; identical identifiers
give a tie. -/
theorem arbitration_first_dominant_wins (a b : Nat) (vs as_ : String)
    (ha : a < 2048) (hb : b < 2048) :
    (a = b → arbitration_winner (_id_to_bits a 11) (_id_to_bits b 11) vs as_ = "TIE") ∧
    (a ≠ b → arbitration_winner (_id_to_bits a 11) (_id_to_bits b 11) vs as_ =
      if a < b then vs else as_) := by
  constructor
  · intro h
    subst h
    exact arb_tie _ vs as_
  · intro hne
    rw [id_to_bits_eq_revBits, id_to_bits_eq_revBits]
    have h11 : (2 : Nat) ^ 11 = 2048 := by norm_num
    exact arb_lower 11 a b vs as_ (by rw [h11]; exact ha) (by rw [h11]; exact hb) hne

/-- C7 witness: identifiers `0x100` and `0x200` — the victim, driving
dominant at the first differing bit (bit 9 of 11), wins. -/
theorem arbitration_first_dominant_wins_witness :
    arbitration_winner (_id_to_bits 0x100 11) (_id_to_bits 0x200 11) "VICTIM" "ATTACKER" =
      if (0x100 : Nat) < 0x200 then "VICTIM" else "ATTACKER" :=
  (arbitration_first_dominant_wins 0x100 0x200 "VICTIM" "ATTACKER"
    (by norm_num) (by norm_num)).2 (by norm_num)

lemma do_transmit_attack_frame (p : Nat) (hp : p ∈ SAFE_INJECT_POSITIONS)
    (nodes : List ECU) (aname : String) (seq : Nat) :
    _do_transmit nodes (_make_attack_frame aname 0x100 (victim_make_frame seq) p)
        (some (victim_make_frame seq)) =
      (_emit_error_flag nodes aname (some "VICTIM"), false) := by
  fin_cases hp <;> rfl

lemma execute_attack_choice (p : Nat) (hp : p ∈ SAFE_INJECT_POSITIONS)
    (nodes : List ECU) (aname : String) (seq : Nat) :
    _execute_attack nodes aname 0x100 (victim_make_frame seq) p =
      _execute_attack nodes aname 0x100 (victim_make_frame seq) 13 := by
  have h13 : (13 : Nat) ∈ SAFE_INJECT_POSITIONS := by decide
  unfold _execute_attack ECU_send
  simp only [do_transmit_attack_frame p hp, do_transmit_attack_frame 13 h13]

lemma attack_choice (p : Nat) (hp : p ∈ SAFE_INJECT_POSITIONS)
    (nodes : List ECU) (seq : Nat) :
    attack nodes "ATTACKER" 0x100 (victim_make_frame seq) p =
      attack nodes "ATTACKER" 0x100 (victim_make_frame seq) 13 := by
  unfold attack
  cases getNode nodes "ATTACKER" with
  | none => rfl
  | some a =>
    dsimp only
    split_ifs <;> try rfl
    rw [execute_attack_choice p hp nodes "ATTACKER" seq]

lemma simCycle_choice (p : Nat) (hp : p ∈ SAFE_INJECT_POSITIONS) (s : SimState) :
    simCycle p s = simCycle 13 s := by
  unfold simCycle
  simp only [attack_choice p hp]

lemma simRun_choice (choice : Nat → Nat) (h : ∀ i, choice i ∈ SAFE_INJECT_POSITIONS) :
    ∀ k, simRun choice k = simRun (fun _ => 13) k := by
  intro k
  induction k with
  | zero => rfl
  | succ k ih =>
    show simCycle (choice k) (simRun choice k) = simCycle 13 (simRun (fun _ => 13) k)
    rw [ih, simCycle_choice (choice k) (h k)]

/-- C1 counterexample: in deterministic mode with injection position 13
(a member of the safe pool) every cycle, the victim's counter is still
strictly below 256 at every cycle boundary of the first 60 cycles — the
victim does not reach Bus-Off within 60 cycles (it does at cycle 63). -/
theorem busoff_not_within_60_cycles_cex :
    13 ∈ SAFE_INJECT_POSITIONS ∧ simNoBusoffWithin60 = true := by
  decide

/-- C1 amended: in deterministic mode (any sequence of injection positions
from the safe pool), the attacker's counter stays within `[0, 8]` at every
cycle boundary — so it never leaves Error-Active — and the victim's counter
reaches 256 (Bus-Off) within 63 cycles (not 60). -/
theorem attacker_drift_and_busoff_by_63 : ∀ choice : Nat → Nat,
    (∀ i, choice i ∈ SAFE_INJECT_POSITIONS) → simBoundariesOk choice = true := by
  intro choice h
  have heq : simBoundariesOk choice = simBoundariesOk (fun _ => 13) := by
    unfold simBoundariesOk
    simp only [simRun_choice choice h]
  rw [heq]
  decide

/-- C1 witness: the constant choice of safe position 13. -/
theorem attacker_drift_and_busoff_by_63_witness :
    simBoundariesOk (fun _ => 13) = true :=
  attacker_drift_and_busoff_by_63 (fun _ => 13)
    (fun _ => (by decide : (13 : Nat) ∈ SAFE_INJECT_POSITIONS))
